import Mathlib

/-!
Verification of the GIFT-Eval benchmark harness's bookkeeping logic.

The development shallowly embeds the pure fragments of the repository:
dataset key normalization (the notebooks' get_dataset_key and the
dataset-info notebook's get_key), frequency and configuration lookup,
the CSV result-row construction of write_to_csv, the (dataset, term)
evaluation loops of the chronos/moirai/feedforward notebooks, the
to_univariate choices, the SLURM array-index decomposition of the
load_datasets job script, and the marker-file branch of
run_load_dataset.sh.

Python strings are modelled as lists of characters; Python dict access
and list indexing, which raise on a missing key, are modelled with
Option; the dataset_properties.json map and the Dataset loader (which
live outside the notebooks) are abstracted as function parameters.
-/

/-- Python strings are modelled as lists of characters. -/
abbrev Str := List Char

/-- ASCII lowercasing of a single character. Python str.lower is full
Unicode, but every dataset name and key in the repository is ASCII, where
the two coincide. -/
def lowerChar (c : Char) : Char :=
  if 65 ≤ c.toNat ∧ c.toNat ≤ 90 then Char.ofNat (c.toNat + 32) else c

/-- Python str.lower applied to a whole string. -/
def lowerStr (s : Str) : Str := s.map lowerChar

/-- Helper for pySplit: the chunk before the first separator paired with
the list of the remaining chunks. -/
def splitChunks (sep : Char) : Str → Str × List Str
  | [] => ([], [])
  | x :: xs =>
    let r := splitChunks sep xs
    if x = sep then ([], r.1 :: r.2) else (x :: r.1, r.2)

/-- Python s.split(sep): every chunk in order, empty chunks kept. The
result is always nonempty, so index 0 in the source never raises. -/
def pySplit (sep : Char) (s : Str) : List Str :=
  (splitChunks sep s).1 :: (splitChunks sep s).2

/-- Python the membership test "/" in name. -/
def containsSlash (s : Str) : Bool := s.contains '/'

/-- Predicate for a character other than '/', used to phrase theorems
about which substring the splitting functions return. -/
def isNotSlash (c : Char) : Bool := !(c == '/')

/-- Embeds get_dataset_key from the model notebooks (feedforward and
moirai notebooks and the feedforward demo): the Python expression
dataset_name.split("/")[0] if "/" in dataset_name else
dataset_name.lower(). -/
def get_dataset_key (name : Str) : Str :=
  if containsSlash name then (pySplit '/' name).headD [] else lowerStr name

/-- Embeds the pretty_names dict of the dataset-info notebook (also
inlined in the chronos notebook's ds_key normalization). -/
def pretty_names : List (Str × Str) :=
  [("saugeenday".toList, "saugeen".toList),
   ("temperature_rain_with_missing".toList, "temperature_rain".toList),
   ("kdd_cup_2018_with_missing".toList, "kdd_cup_2018".toList),
   ("car_parts_with_missing".toList, "car_parts".toList)]

/-- Python pretty_names.get(key, key): the substituted name when key is
one of the four aliases, otherwise key itself. -/
def prettyGet (key : Str) : Str :=
  match pretty_names.find? (fun p => p.1 == key) with
  | some p => p.2
  | none => key

/-- Embeds get_key from the dataset-info notebook: split at the first
'/', lowercase the head, then apply the pretty-name substitution. -/
def get_key (name : Str) : Str :=
  let key := if containsSlash name then (pySplit '/' name).headD [] else name
  prettyGet (lowerStr key)

theorem toNat_ofNat_of_valid (n : Nat) (h : n.isValidChar) :
    (Char.ofNat n).toNat = n := by
  simp only [Char.ofNat, dif_pos h]
  rfl

theorem lowerChar_idem (c : Char) : lowerChar (lowerChar c) = lowerChar c := by
  by_cases h : 65 ≤ c.toNat ∧ c.toNat ≤ 90
  · have h1 : lowerChar c = Char.ofNat (c.toNat + 32) := by
      unfold lowerChar
      exact if_pos h
    have hv : (c.toNat + 32).isValidChar := Or.inl (by omega)
    have ht : (Char.ofNat (c.toNat + 32)).toNat = c.toNat + 32 :=
      toNat_ofNat_of_valid _ hv
    rw [h1]
    unfold lowerChar
    rw [if_neg (by rw [ht]; omega)]
  · have h1 : lowerChar c = c := by
      unfold lowerChar
      exact if_neg h
    rw [h1, h1]

theorem lowerStr_idem (s : Str) : lowerStr (lowerStr s) = lowerStr s := by
  simp [lowerStr, List.map_map, Function.comp_def, lowerChar_idem]

theorem splitChunks_fst (sep : Char) (s : Str) :
    (splitChunks sep s).1 = s.takeWhile (fun c => !(c == sep)) := by
  induction s with
  | nil => rfl
  | cons x xs ih =>
    by_cases h : x = sep
    · simp [splitChunks, h, List.takeWhile]
    · have hbeq : (!(x == sep)) = true := by simp [h]
      simp [splitChunks, h, List.takeWhile, ih, hbeq]

/-- Claim C4: get_dataset_key keeps the substring before the first '/'
unchanged (in particular not lowercased) when the name contains a slash,
and lowercases the whole name when it does not. -/
theorem get_dataset_key_head_or_lower (name : Str) :
    get_dataset_key name =
      if containsSlash name then name.takeWhile isNotSlash else lowerStr name := by
  unfold get_dataset_key
  by_cases h : containsSlash name
  · rw [if_pos h, if_pos h]
    show (pySplit '/' name).headD [] = _
    simp only [pySplit, List.headD_cons, splitChunks_fst]
    rfl
  · rw [if_neg h, if_neg h]

/-- Claim C1 (amended): get_key is get_dataset_key post-composed with
ASCII lowercasing and the pretty-name substitution; the two key
functions therefore agree exactly on the names that extra normalization
fixes, and differ elsewhere. -/
theorem get_key_eq_pretty_lower_get_dataset_key (name : Str) :
    get_key name = prettyGet (lowerStr (get_dataset_key name)) := by
  unfold get_key get_dataset_key
  by_cases h : containsSlash name
  · rw [if_pos h, if_pos h]
  · rw [if_neg h, if_neg h, lowerStr_idem]

/-- Claim C1 counterexample: on the dataset name "saugeenday" the model
notebooks' get_dataset_key returns "saugeenday" while the dataset-info
notebook's get_key returns "saugeen", so the two key normalizations
disagree. -/
theorem get_dataset_key_ne_get_key_saugeenday :
    get_dataset_key "saugeenday".toList ≠ get_key "saugeenday".toList := by
  decide

/-- Record of one entry of dataset_properties.json, holding the fields
the notebooks read (frequency, domain, num_variates). -/
structure DatasetProperties where
  frequency : Str
  domain : Str
  num_variates : Nat
deriving DecidableEq

/-- Embeds get_dataset_freq from the model notebooks: the Python
expression dataset_name.split("/")[1] if "/" in dataset_name else
dataset_properties_map[key]["frequency"]. The JSON map is abstracted as
the parameter props; its KeyError on a missing key is modelled by
Option. Index [1] exists in the source whenever the guard holds, since
the name then contains a slash. -/
def get_dataset_freq (props : Str → Option DatasetProperties)
    (name : Str) : Option Str :=
  if containsSlash name then some ((pySplit '/' name).getD 1 [])
  else (props (get_dataset_key name)).map (fun p => p.frequency)

/-- Embeds get_dataset_config from the model notebooks: the f-string
f"{key}/{freq}/{term}" over key = get_dataset_key(name) and
freq = get_dataset_freq(name). -/
def get_dataset_config (props : Str → Option DatasetProperties)
    (name term : Str) : Option Str :=
  match get_dataset_freq props name with
  | some freq => some (get_dataset_key name ++ '/' :: freq ++ '/' :: term)
  | none => none

theorem pySplit_getD_one (s : Str) (h : containsSlash s = true) :
    (pySplit '/' s).getD 1 [] =
      ((s.dropWhile isNotSlash).tail).takeWhile isNotSlash := by
  induction s with
  | nil => simp [containsSlash] at h
  | cons x xs ih =>
    by_cases hx : x = '/'
    · subst hx
      simp only [pySplit, splitChunks, if_pos rfl, List.getD_cons_succ,
        List.getD_cons_zero, List.dropWhile]
      have : isNotSlash '/' = false := by decide
      rw [this]
      simp only [splitChunks_fst, List.tail_cons]
      rfl
    · have hxs : containsSlash xs = true := by
        simp only [containsSlash, List.contains_cons] at h
        rcases Bool.or_eq_true_iff.mp h with h1 | h1
        · exact absurd (by simpa [eq_comm] using (beq_iff_eq.mp h1)) hx
        · exact h1
      have hstep : (pySplit '/' (x :: xs)).getD 1 [] = (pySplit '/' xs).getD 1 [] := by
        simp [pySplit, splitChunks, hx]
      have hns : isNotSlash x = true := by simp [isNotSlash, hx]
      rw [hstep, ih hxs]
      simp [List.dropWhile, hns]

/-- Claim C5 (amended): get_dataset_config returns
key + "/" + freq + "/" + term, where key is the (unlowered) segment
before the first '/' when the name contains one and the lowercased name
otherwise, and freq is the segment between the first and the second '/'
(Python split("/")[1]) in the slash case and the map's frequency field
otherwise; the lookup succeeds in the no-slash case exactly when the key
is present in the properties map. -/
theorem get_dataset_config_characterization
    (props : Str → Option DatasetProperties) (name term : Str) :
    get_dataset_config props name term =
      if containsSlash name then
        some (name.takeWhile isNotSlash ++
          '/' :: ((name.dropWhile isNotSlash).tail).takeWhile isNotSlash ++
          '/' :: term)
      else
        (props (lowerStr name)).map
          (fun p => lowerStr name ++ '/' :: p.frequency ++ '/' :: term) := by
  unfold get_dataset_config get_dataset_freq
  by_cases h : containsSlash name
  · rw [if_pos h, if_pos h, pySplit_getD_one name h,
      get_dataset_key_head_or_lower, if_pos h]
  · rw [if_neg h, if_neg h, get_dataset_key_head_or_lower, if_neg h]
    cases props (lowerStr name) <;> rfl

/-- Claim C5 counterexample: for the name "a/b/c" the code's frequency
component is "b" (the segment between the first and the second slash),
not the substring "b/c" after the first slash as the claim states, so
the produced configuration is "a/b/short" rather than "a/b/c/short". -/
theorem get_dataset_config_slash_counterexample :
    get_dataset_config (fun _ => none) "a/b/c".toList "short".toList =
        some "a/b/short".toList ∧
      get_dataset_config (fun _ => none) "a/b/c".toList "short".toList ≠
        some ("a".toList ++ '/' :: "b/c".toList ++ '/' :: "short".toList) := by
  constructor
  · decide
  · decide

/-- Field of a CSV row: a string cell, a metric value cell (the value
type V is kept abstract, so the harness provably cannot compute with the
metric values), or a numeric cell for num_variates. -/
inductive CsvField (V : Type) where
  | str : Str → CsvField V
  | metric : V → CsvField V
  | nat : Nat → CsvField V
deriving DecidableEq

/-- Names of the eleven metric entries of the evaluate_model result dict
in the order write_to_csv reads them. -/
def metricKeys : List Str :=
  ["MSE[mean]".toList, "MSE[0.5]".toList, "MAE[0.5]".toList,
   "MASE[0.5]".toList, "MAPE[0.5]".toList, "sMAPE[0.5]".toList,
   "MSIS".toList, "RMSE[mean]".toList, "NRMSE[mean]".toList,
   "ND[0.5]".toList, "mean_weighted_sum_quantile_loss".toList]

/-- Header row that the notebooks write when initializing the results
CSV file, copied from the source literal. -/
def csvHeader : List Str :=
  ["dataset".toList, "model".toList,
   "eval_metrics/MSE[mean]".toList, "eval_metrics/MSE[0.5]".toList,
   "eval_metrics/MAE[0.5]".toList, "eval_metrics/MASE[0.5]".toList,
   "eval_metrics/MAPE[0.5]".toList, "eval_metrics/sMAPE[0.5]".toList,
   "eval_metrics/MSIS".toList, "eval_metrics/RMSE[mean]".toList,
   "eval_metrics/NRMSE[mean]".toList, "eval_metrics/ND[0.5]".toList,
   "eval_metrics/mean_weighted_sum_quantile_loss".toList,
   "domain".toList, "num_variates".toList]

/-- Reads results[k][0] for each metric name k in order. Python raises
on a missing key or an empty array, modelled by Option. -/
def firstEntries {V : Type} (results : Str → List V) : List Str → Option (List V)
  | [] => some []
  | k :: ks =>
    match (results k).head?, firstEntries results ks with
    | some v, some vs => some (v :: vs)
    | _, _ => none

/-- Embeds write_to_csv of the feedforward notebooks: computes the
dataset configuration, opens the results CSV in append mode and writes
the single row [dataset_config, "feedforward", the eleven metric values
results[k][0], domain, num_variates]. The file is modelled as the list
of its rows; append mode adds the new row after the existing ones. -/
def write_to_csv {V : Type} (props : Str → Option DatasetProperties)
    (results : Str → List V) (csvFile : List (List (CsvField V)))
    (term name : Str) : Option (List (List (CsvField V))) :=
  match get_dataset_config props name term, props (get_dataset_key name),
      firstEntries results metricKeys with
  | some config, some p, some vals =>
    some (csvFile ++
      [CsvField.str config :: CsvField.str "feedforward".toList ::
        (vals.map CsvField.metric ++
          [CsvField.str p.domain, CsvField.nat p.num_variates])])
  | _, _, _ => none

theorem firstEntries_length {V : Type} (results : Str → List V)
    (ks : List Str) (vals : List V)
    (h : firstEntries results ks = some vals) : vals.length = ks.length := by
  induction ks generalizing vals with
  | nil =>
    simp only [firstEntries, Option.some.injEq] at h
    subst h
    rfl
  | cons k ks ih =>
    unfold firstEntries at h
    cases hv : (results k).head? with
    | none => rw [hv] at h; exact absurd h (by simp)
    | some v =>
      rw [hv] at h
      cases hvs : firstEntries results ks with
      | none => rw [hvs] at h; exact absurd h (by simp)
      | some vs =>
        rw [hvs] at h
        simp only [Option.some.injEq] at h
        subst h
        simp [ih vs hvs]

theorem firstEntries_get {V : Type} (results : Str → List V)
    (ks : List Str) (vals : List V)
    (h : firstEntries results ks = some vals) :
    ∀ i (hi : i < ks.length) (hi' : i < vals.length),
      (results (ks.get ⟨i, hi⟩)).head? = some (vals.get ⟨i, hi'⟩) := by
  induction ks generalizing vals with
  | nil => intro i hi; exact absurd hi (by simp)
  | cons k ks ih =>
    unfold firstEntries at h
    cases hv : (results k).head? with
    | none => rw [hv] at h; exact absurd h (by simp)
    | some v =>
      rw [hv] at h
      cases hvs : firstEntries results ks with
      | none => rw [hvs] at h; exact absurd h (by simp)
      | some vs =>
        rw [hvs] at h
        simp only [Option.some.injEq] at h
        subst h
        intro i hi hi'
        cases i with
        | zero => simpa using hv
        | succ j =>
          exact ih vs hvs j (by simpa using hi) (by simpa using hi')

theorem write_to_csv_eq {V : Type} (props : Str → Option DatasetProperties)
    (results : Str → List V) (csvFile : List (List (CsvField V)))
    (term name : Str) (csvFile' : List (List (CsvField V)))
    (h : write_to_csv props results csvFile term name = some csvFile') :
    ∃ config p vals,
      get_dataset_config props name term = some config ∧
      props (get_dataset_key name) = some p ∧
      firstEntries results metricKeys = some vals ∧
      csvFile' = csvFile ++
        [CsvField.str config :: CsvField.str "feedforward".toList ::
          (vals.map CsvField.metric ++
            [CsvField.str p.domain, CsvField.nat p.num_variates])] := by
  unfold write_to_csv at h
  cases hc : get_dataset_config props name term with
  | none => rw [hc] at h; exact absurd h (by simp)
  | some config =>
    rw [hc] at h
    cases hp : props (get_dataset_key name) with
    | none => rw [hp] at h; exact absurd h (by simp)
    | some p =>
      rw [hp] at h
      cases hvals : firstEntries results metricKeys with
      | none => rw [hvals] at h; exact absurd h (by simp)
      | some vals =>
        rw [hvals] at h
        simp only [Option.some.injEq] at h
        exact ⟨config, p, vals, rfl, rfl, rfl, h.symm⟩

/-- Claim C6: write_to_csv only appends: whenever the call succeeds, the
rows present before it form an unchanged initial segment of the file
afterwards and exactly one new row stands at the end. -/
theorem write_to_csv_appends {V : Type} (props : Str → Option DatasetProperties)
    (results : Str → List V) (csvFile : List (List (CsvField V)))
    (term name : Str) (csvFile' : List (List (CsvField V)))
    (h : write_to_csv props results csvFile term name = some csvFile') :
    csvFile'.take csvFile.length = csvFile ∧
      csvFile'.length = csvFile.length + 1 ∧
      ∃ row, csvFile' = csvFile ++ [row] := by
  obtain ⟨config, p, vals, -, -, -, heq⟩ :=
    write_to_csv_eq props results csvFile term name csvFile' h
  subst heq
  exact ⟨List.take_left csvFile _, by simp, _, rfl⟩

/-- Claim C3: every metric cell of the appended row is the entry
results[k][0] of the evaluate_model result dict, wrapped unchanged into
the row at column offset 2 + i; the metric value type is a type
parameter, so the harness provably performs no arithmetic on it. -/
theorem write_to_csv_metrics_unchanged {V : Type}
    (props : Str → Option DatasetProperties) (results : Str → List V)
    (csvFile : List (List (CsvField V))) (term name : Str)
    (csvFile' : List (List (CsvField V)))
    (h : write_to_csv props results csvFile term name = some csvFile') :
    ∃ row, csvFile' = csvFile ++ [row] ∧
      ∀ i (hi : i < metricKeys.length),
        ∃ v, (results (metricKeys.get ⟨i, hi⟩)).head? = some v ∧
          row.get? (2 + i) = some (CsvField.metric v) := by
  obtain ⟨config, p, vals, hc, hp, hvals, heq⟩ :=
    write_to_csv_eq props results csvFile term name csvFile' h
  have hlen := firstEntries_length results metricKeys vals hvals
  refine ⟨_, heq, ?_⟩
  intro i hi
  have hi' : i < vals.length := by omega
  refine ⟨vals.get ⟨i, hi'⟩, firstEntries_get results metricKeys vals hvals i hi hi', ?_⟩
  show ((CsvField.str config :: CsvField.str "feedforward".toList ::
    (vals.map CsvField.metric ++
      [CsvField.str p.domain, CsvField.nat p.num_variates])) :
        List (CsvField V)).get? (2 + i) = _
  have h2 : 2 + i = i + 2 := by omega
  rw [h2]
  simp only [List.get?_cons_succ]
  rw [List.get?_append (by simpa using hi')]
  rw [List.get?_map, List.get?_eq_get hi']
  rfl

/-- Claim C7: each appended result row has exactly 15 fields, one per
header column; the header consists of dataset, model, the eleven metric
columns in the order of metricKeys (each tagged "eval_metrics/"), then
domain and num_variates. -/
theorem write_to_csv_row_arity {V : Type}
    (props : Str → Option DatasetProperties) (results : Str → List V)
    (csvFile : List (List (CsvField V))) (term name : Str)
    (csvFile' : List (List (CsvField V)))
    (h : write_to_csv props results csvFile term name = some csvFile') :
    csvHeader.length = 15 ∧
      csvHeader = "dataset".toList :: "model".toList ::
        (metricKeys.map (fun k => "eval_metrics/".toList ++ k) ++
          ["domain".toList, "num_variates".toList]) ∧
      ∃ row, csvFile' = csvFile ++ [row] ∧ row.length = csvHeader.length := by
  obtain ⟨config, p, vals, hc, hp, hvals, heq⟩ :=
    write_to_csv_eq props results csvFile term name csvFile' h
  have hlen := firstEntries_length results metricKeys vals hvals
  refine ⟨by decide, by decide, _, heq, ?_⟩
  have hm : metricKeys.length = 11 := by decide
  have hh : csvHeader.length = 15 := by decide
  simp only [List.length_cons, List.length_append, List.length_map, hlen,
    List.length_nil, hm, hh]

/-- Concrete properties map used by the evaluation witnesses: it holds
the single key "m4_hourly". -/
def propsDemo : Str → Option DatasetProperties := fun k =>
  if k == "m4_hourly".toList then
    some { frequency := "H".toList, domain := "Econ/Fin".toList, num_variates := 1 }
  else none

/-- Concrete evaluate_model result dict used by the evaluation
witnesses: every metric maps to the one-element array [7]. -/
def resultsDemo : Str → List Nat := fun _ => [7]

/-- Concrete CSV file produced by one successful write_to_csv call on an
empty file, used by the evaluation witnesses. -/
def demoFile : List (List (CsvField Nat)) :=
  (write_to_csv propsDemo resultsDemo [] "short".toList "m4_hourly".toList).getD []

/-- Witness for claim C6 at a concrete successful call. -/
theorem write_to_csv_appends_witness :
    demoFile.take ([] : List (List (CsvField Nat))).length = [] ∧
      demoFile.length = ([] : List (List (CsvField Nat))).length + 1 ∧
      ∃ row, demoFile = [] ++ [row] :=
  write_to_csv_appends propsDemo resultsDemo []
    "short".toList "m4_hourly".toList demoFile (by rfl)

/-- Witness for claim C3 at a concrete successful call. -/
theorem write_to_csv_metrics_unchanged_witness :
    ∃ row, demoFile = [] ++ [row] ∧
      ∀ i (hi : i < metricKeys.length),
        ∃ v, (resultsDemo (metricKeys.get ⟨i, hi⟩)).head? = some v ∧
          row.get? (2 + i) = some (CsvField.metric v) :=
  write_to_csv_metrics_unchanged propsDemo resultsDemo []
    "short".toList "m4_hourly".toList demoFile (by rfl)

/-- Witness for claim C7 at a concrete successful call. -/
theorem write_to_csv_row_arity_witness :
    csvHeader.length = 15 ∧
      csvHeader = "dataset".toList :: "model".toList ::
        (metricKeys.map (fun k => "eval_metrics/".toList ++ k) ++
          ["domain".toList, "num_variates".toList]) ∧
      ∃ row, demoFile = [] ++ [row] ∧ row.length = csvHeader.length :=
  write_to_csv_row_arity propsDemo resultsDemo []
    "short".toList "m4_hourly".toList demoFile (by rfl)

/-- Terms list of the notebooks: short, medium, long, in source order. -/
def termsList : List Str := ["short".toList, "medium".toList, "long".toList]

/-- Embeds the iteration structure of the chronos and moirai
benchmark evaluation loops: for each dataset in order and
each term in order, the pair is skipped (continue) when the term is
medium or long and the dataset is not in the med-long list; otherwise
evaluate_model is called once and one row is appended, which this trace
records as the emitted (dataset, term) pair. -/
def chronosEvalLoop (allDatasets medLong : List Str) : List (Str × Str) :=
  allDatasets.flatMap (fun ds =>
    termsList.filterMap (fun term =>
      if (term == "medium".toList || term == "long".toList)
          && !(medLong.contains ds)
      then none else some (ds, term)))

/-- Embeds the feedforward demo notebook's inference loop: for each term
and each dataset, the pair is skipped whenever the term is not short;
otherwise perform_inference runs and write_to_csv appends one row. -/
def inferenceEvalLoop (allNames : List Str) : List (Str × Str) :=
  termsList.flatMap (fun term =>
    allNames.filterMap (fun ds =>
      if term != "short".toList then none else some (ds, term)))

theorem chronosBlock (d : Str) (medLong : List Str) :
    (termsList.filterMap (fun term =>
      if (term == "medium".toList || term == "long".toList)
          && !(medLong.contains d)
      then none else some (d, term))) =
      (termsList.map (fun t => (d, t))).filter
        (fun p => p.2 == "short".toList || medLong.contains p.1) := by
  have e1 : (("short".toList : Str) == "medium".toList) = false := by decide
  have e2 : (("short".toList : Str) == "long".toList) = false := by decide
  have e3 : (("short".toList : Str) == "short".toList) = true := by decide
  have e4 : (("medium".toList : Str) == "medium".toList) = true := by decide
  have e5 : (("medium".toList : Str) == "short".toList) = false := by decide
  have e6 : (("long".toList : Str) == "long".toList) = true := by decide
  have e7 : (("long".toList : Str) == "short".toList) = false := by decide
  have e8 : (("long".toList : Str) == "medium".toList) = false := by decide
  cases hb : medLong.contains d with
  | true =>
    trans ([(d, "short".toList), (d, "medium".toList), (d, "long".toList)])
    · simp only [termsList, List.filterMap_cons, List.filterMap_nil, hb,
        Bool.not_true, Bool.and_false]
      simp
    · simp only [termsList, List.map_cons, List.map_nil, List.filter_cons,
        hb, Bool.or_true]
      simp
  | false =>
    trans ([(d, "short".toList)])
    · simp only [termsList, List.filterMap_cons, List.filterMap_nil, hb,
        Bool.not_false, Bool.and_true, e1, e2, e4, e6, e8, Bool.or_self,
        Bool.true_or, Bool.or_true, Bool.false_or, Bool.or_false]
      simp
    · simp only [termsList, List.map_cons, List.map_nil, List.filter_cons,
        hb, e3, e5, e7, Bool.true_or, Bool.false_or, Bool.or_false]
      simp

theorem chronosEvalLoop_eq_filter (allDatasets medLong : List Str) :
    chronosEvalLoop allDatasets medLong =
      (List.product allDatasets termsList).filter
        (fun p => p.2 == "short".toList || medLong.contains p.1) := by
  induction allDatasets with
  | nil => rfl
  | cons d ds ih =>
    simp only [chronosEvalLoop, List.flatMap_cons, List.product_cons,
      List.filter_append] at ih ⊢
    rw [ih, chronosBlock]
    rw [show (d :: ds).product termsList =
        (termsList.map (fun t => (d, t))) ++ ds.product termsList from rfl,
      List.filter_append]

theorem inferenceEvalLoop_eq_map (allNames : List Str) :
    inferenceEvalLoop allNames =
      allNames.map (fun ds => (ds, "short".toList)) := by
  have b1 : (("short".toList : Str) != "short".toList) = false := by decide
  have b2 : (("medium".toList : Str) != "short".toList) = true := by decide
  have b3 : (("long".toList : Str) != "short".toList) = true := by decide
  simp only [inferenceEvalLoop, termsList, List.flatMap_cons, List.flatMap_nil,
    b1, b2, b3]
  simp only [Bool.false_eq_true, if_false, if_true, List.append_nil]
  induction allNames with
  | nil => simp
  | cons d ds ih =>
    simp only [List.filterMap_cons, List.map_cons] at ih ⊢
    simp at ih ⊢
    simp [ih]

theorem count_eq_one_of_nodup_mem {A : Type} [BEq A] [LawfulBEq A]
    {l : List A} {a : A} (hnd : l.Nodup) (ha : a ∈ l) :
    List.count a l = 1 := by
  induction l with
  | nil => exact absurd ha (by simp)
  | cons b l ih =>
    rw [List.count_cons]
    rcases List.mem_cons.mp ha with hab | hal
    · subst hab
      have hbl : a ∉ l := (List.nodup_cons.mp hnd).1
      simp [List.count_eq_zero_of_not_mem hbl]
    · have hbl : b ∉ l := (List.nodup_cons.mp hnd).1
      have hne : (b == a) = false := by
        refine beq_eq_false_iff_ne.mpr ?_
        intro hba
        exact hbl (hba ▸ hal)
      simp [hne, ih (List.nodup_cons.mp hnd).2 hal]

/-- Claim C2 (amended): the chronos and moirai benchmark evaluation
loops visit the (dataset, term) pairs in order and evaluate-and-write
exactly one result row for a pair iff the term is short or the dataset
is in the med-long list, skipping the pair otherwise; the feedforward
notebook's inference loop instead writes exactly one row iff the term
is short, so it also skips medium and long terms of med-long datasets. -/
theorem eval_loop_row_counts (allDatasets medLong : List Str) (ds term : Str)
    (hnd : allDatasets.Nodup) :
    chronosEvalLoop allDatasets medLong =
      (List.product allDatasets termsList).filter
        (fun p => p.2 == "short".toList || medLong.contains p.1) ∧
      (List.count (ds, term) (chronosEvalLoop allDatasets medLong) = 1 ↔
        ds ∈ allDatasets ∧ term ∈ termsList ∧
          (term = "short".toList ∨ ds ∈ medLong)) ∧
      (List.count (ds, term) (chronosEvalLoop allDatasets medLong) = 0 ↔
        ¬(ds ∈ allDatasets ∧ term ∈ termsList ∧
          (term = "short".toList ∨ ds ∈ medLong))) ∧
      (List.count (ds, term) (inferenceEvalLoop allDatasets) = 1 ↔
        ds ∈ allDatasets ∧ term = "short".toList) := by
  have htermsnd : termsList.Nodup := by decide
  have hloopnd : (chronosEvalLoop allDatasets medLong).Nodup := by
    rw [chronosEvalLoop_eq_filter]
    exact (List.Nodup.product hnd htermsnd).filter _
  have hprod : ∀ p : Str × Str,
      p ∈ allDatasets.product termsList ↔
        p.1 ∈ allDatasets ∧ p.2 ∈ termsList := by
    intro p
    cases p with
    | mk a b => exact List.mem_product
  have hmem : (ds, term) ∈ chronosEvalLoop allDatasets medLong ↔
      (ds ∈ allDatasets ∧ term ∈ termsList ∧
        (term = "short".toList ∨ ds ∈ medLong)) := by
    rw [chronosEvalLoop_eq_filter]
    simp only [List.mem_filter, hprod]
    simp only [Bool.or_eq_true, beq_iff_eq]
    have hcont : (medLong.contains ds = true) ↔ ds ∈ medLong := by
      simp
    rw [hcont]
    tauto
  refine ⟨chronosEvalLoop_eq_filter allDatasets medLong, ?_, ?_, ?_⟩
  · by_cases hc : ds ∈ allDatasets ∧ term ∈ termsList ∧
        (term = "short".toList ∨ ds ∈ medLong)
    · exact iff_of_true (count_eq_one_of_nodup_mem hloopnd (hmem.mpr hc)) hc
    · have hnm : (ds, term) ∉ chronosEvalLoop allDatasets medLong :=
        fun hm => hc (hmem.mp hm)
      refine iff_of_false ?_ hc
      rw [List.count_eq_zero_of_not_mem hnm]
      omega
  · by_cases hc : ds ∈ allDatasets ∧ term ∈ termsList ∧
        (term = "short".toList ∨ ds ∈ medLong)
    · refine iff_of_false ?_ (not_not_intro hc)
      rw [count_eq_one_of_nodup_mem hloopnd (hmem.mpr hc)]
      omega
    · have hnm : (ds, term) ∉ chronosEvalLoop allDatasets medLong :=
        fun hm => hc (hmem.mp hm)
      exact iff_of_true (List.count_eq_zero_of_not_mem hnm) hc
  · rw [inferenceEvalLoop_eq_map]
    by_cases ht : term = "short".toList
    · subst ht
      have hinj : Function.Injective (fun d : Str => (d, "short".toList)) :=
        fun a b hab => congrArg Prod.fst hab
      by_cases hds : ds ∈ allDatasets
      · have hm : (ds, "short".toList) ∈
            allDatasets.map (fun d => (d, "short".toList)) :=
          List.mem_map.mpr ⟨ds, hds, rfl⟩
        exact iff_of_true
          (count_eq_one_of_nodup_mem (hnd.map hinj) hm) ⟨hds, rfl⟩
      · have hnm : (ds, "short".toList) ∉
            allDatasets.map (fun d => (d, "short".toList)) := by
          intro hm
          obtain ⟨a, ha, heq⟩ := List.mem_map.mp hm
          have hads : a = ds := congrArg Prod.fst heq
          exact hds (hads ▸ ha)
        refine iff_of_false ?_ (fun hcon => hds hcon.1)
        rw [List.count_eq_zero_of_not_mem hnm]
        omega
    · have hnm : (ds, term) ∉
          allDatasets.map (fun d => (d, "short".toList)) := by
        intro hm
        obtain ⟨a, ha, heq⟩ := List.mem_map.mp hm
        exact ht (congrArg Prod.snd heq).symm
      refine iff_of_false ?_ (fun hcon => ht hcon.2)
      rw [List.count_eq_zero_of_not_mem hnm]
      omega

/-- Name of the short demo dataset of the feedforward notebook. -/
def m4HourlyName : Str := "m4_hourly".toList

/-- Name of the med-long demo dataset of the feedforward notebook. -/
def bizitobsL2cH : Str := "bizitobs_l2c/H".toList

/-- The all_dataset_names list of the feedforward demo notebook. -/
def all_dataset_names : List Str := [m4HourlyName, bizitobsL2cH]

/-- The med-long dataset names of the feedforward demo notebook,
obtained from splitting its med_long_dataset_names_string. -/
def med_long_dataset_names : List Str :=
  ["electricity/15T".toList, "electricity/H".toList, "solar/10T".toList,
   "solar/H".toList, "kdd_cup_2018_with_missing/H".toList,
   "LOOP_SEATTLE/5T".toList, "LOOP_SEATTLE/H".toList, "SZ_TAXI/15T".toList,
   "M_DENSE/H".toList, "ett1/15T".toList, "ett1/H".toList, "ett2/15T".toList,
   "ett2/H".toList, "jena_weather/10T".toList, "jena_weather/H".toList,
   "bitbrains_fast_storage/5T".toList, "bitbrains_rnd/5T".toList,
   "bizitobs_application".toList, "bizitobs_service".toList,
   "bizitobs_l2c/5T".toList, "bizitobs_l2c/H".toList]

/-- Witness for claim C2 at the feedforward demo notebook's concrete
dataset lists and the pair (m4_hourly, short). -/
theorem eval_loop_row_counts_witness :
    chronosEvalLoop all_dataset_names med_long_dataset_names =
      (List.product all_dataset_names termsList).filter
        (fun p => p.2 == "short".toList ||
          med_long_dataset_names.contains p.1) ∧
      (List.count (m4HourlyName, "short".toList)
          (chronosEvalLoop all_dataset_names med_long_dataset_names) = 1 ↔
        m4HourlyName ∈ all_dataset_names ∧ "short".toList ∈ termsList ∧
          ("short".toList = "short".toList ∨
            m4HourlyName ∈ med_long_dataset_names)) ∧
      (List.count (m4HourlyName, "short".toList)
          (chronosEvalLoop all_dataset_names med_long_dataset_names) = 0 ↔
        ¬(m4HourlyName ∈ all_dataset_names ∧ "short".toList ∈ termsList ∧
          ("short".toList = "short".toList ∨
            m4HourlyName ∈ med_long_dataset_names))) ∧
      (List.count (m4HourlyName, "short".toList)
          (inferenceEvalLoop all_dataset_names) = 1 ↔
        m4HourlyName ∈ all_dataset_names ∧
          "short".toList = "short".toList) :=
  eval_loop_row_counts all_dataset_names med_long_dataset_names
    m4HourlyName "short".toList (by decide)

/-- Claim C2 counterexample: in the feedforward demo notebook's
inference loop the pair (bizitobs_l2c/H, medium) gets no row although
the dataset is in the med-long list, contradicting the claimed iff. -/
theorem inference_loop_medium_counterexample :
    ¬ (List.count (bizitobsL2cH, "medium".toList)
        (inferenceEvalLoop all_dataset_names) = 1 ↔
      ("medium".toList = "short".toList ∨
        bizitobsL2cH ∈ med_long_dataset_names)) := by
  decide

/-- Embeds check_if_multivariate of the feedforward notebooks: it loads
Dataset(name, term, to_univariate=False) and returns target_dim > 1.
The Dataset loader is abstracted by targetDim, giving the target_dim of
the dataset loaded without univariate conversion. -/
def check_if_multivariate (targetDim : Str → Str → Nat)
    (name term : Str) : Bool :=
  targetDim name term > 1

/-- Embeds the to_univariate choice of the feedforward notebooks'
combine_datasets and perform_inference: True if is_multivariate else
False. -/
def ff_to_univariate (targetDim : Str → Str → Nat)
    (name term : Str) : Bool :=
  if check_if_multivariate targetDim name term then true else false

/-- Embeds the chronos notebook's inline choice: False if
Dataset(name, term, to_univariate=False).target_dim == 1 else True. -/
def chronos_to_univariate (targetDim : Str → Str → Nat)
    (name term : Str) : Bool :=
  if targetDim name term == 1 then false else true

/-- Embeds the moirai notebook's evaluation loops: to_univariate is the
constant False (the target_dim test is commented out there, since
Moirai handles multivariate series natively). -/
def moirai_to_univariate (name term : Str) : Bool := false

/-- Claim C8 (amended): in the feedforward notebooks' evaluation paths
the dataset is converted to univariate exactly when its target_dim
exceeds 1; the chronos notebook converts exactly when target_dim is not
1, which agrees whenever target_dim is at least 1; the moirai notebook
never requests univariate conversion. -/
theorem to_univariate_policies (targetDim : Str → Str → Nat)
    (name term : Str) (hpos : 1 ≤ targetDim name term) :
    (ff_to_univariate targetDim name term = true ↔
      1 < targetDim name term) ∧
      (chronos_to_univariate targetDim name term = true ↔
        1 < targetDim name term) ∧
      moirai_to_univariate name term = false := by
  refine ⟨?_, ?_, rfl⟩
  · unfold ff_to_univariate check_if_multivariate
    by_cases h : targetDim name term > 1 <;> simp [h]
  · unfold chronos_to_univariate
    by_cases h : targetDim name term = 1
    · simp [h]
    · have hb : (targetDim name term == 1) = false := by
        simpa using h
      rw [hb]
      simp
      omega

/-- Target-dimension assignment used by the C8 witness and
counterexample: every dataset has target_dim 7, as bizitobs_l2c/H has
in the repository (num_variates 7). -/
def targetDimSeven : Str → Str → Nat := fun _ _ => 7

/-- Witness for claim C8 at the concrete target dimension 7. -/
theorem to_univariate_policies_witness :
    (ff_to_univariate targetDimSeven bizitobsL2cH "short".toList = true ↔
      1 < targetDimSeven bizitobsL2cH "short".toList) ∧
      (chronos_to_univariate targetDimSeven bizitobsL2cH "short".toList = true ↔
        1 < targetDimSeven bizitobsL2cH "short".toList) ∧
      moirai_to_univariate bizitobsL2cH "short".toList = false :=
  to_univariate_policies targetDimSeven bizitobsL2cH "short".toList
    (by decide)

/-- Claim C8 counterexample: the moirai notebook evaluates the
multivariate dataset bizitobs_l2c/H (target_dim 7 > 1) with
to_univariate = False, so univariate conversion is not requested
exactly when target_dim exceeds 1. -/
theorem moirai_multivariate_counterexample :
    ¬ (moirai_to_univariate bizitobsL2cH "short".toList = true ↔
      1 < targetDimSeven bizitobsL2cH "short".toList) := by
  decide

/-- Embeds term_index of the load_datasets array job script:
SLURM_ARRAY_TASK_ID / num_names (bash integer division). -/
def term_index (num_names task_id : Nat) : Nat := task_id / num_names

/-- Embeds name_index of the load_datasets array job script:
SLURM_ARRAY_TASK_ID % num_names. -/
def name_index (num_names task_id : Nat) : Nat := task_id % num_names

/-- Joint decomposition of one SLURM array task id into the pair
(term_index, name_index) read by the job script. -/
def slurmDecomp (num_names task_id : Nat) : Nat × Nat :=
  (term_index num_names task_id, name_index num_names task_id)

/-- Claim C9: with num_names positive, the decomposition
term_index = id / num_names, name_index = id % num_names maps the task
ids 0 .. 3 * num_names - 1 bijectively onto the pairs of a term index
below 3 (the script's terms array holds the three distinct terms short,
medium, long) and a name index below num_names. -/
theorem slurm_decomp_bijective (n : Nat) (h : 0 < n) :
    Set.BijOn (slurmDecomp n) (Set.Iio (3 * n))
        (Set.Iio 3 ×ˢ Set.Iio n) ∧
      termsList.length = 3 ∧ termsList.Nodup := by
  refine ⟨⟨?_, ?_, ?_⟩, rfl, by decide⟩
  · intro id hid
    constructor
    · show term_index n id < 3
      unfold term_index
      exact (Nat.div_lt_iff_lt_mul h).mpr (by simpa [Nat.mul_comm] using hid)
    · show name_index n id < n
      exact Nat.mod_lt _ h
  · intro a ha b hb hab
    have h1 : a / n = b / n := congrArg Prod.fst hab
    have h2 : a % n = b % n := congrArg Prod.snd hab
    calc a = n * (a / n) + a % n := (Nat.div_add_mod a n).symm
      _ = n * (b / n) + b % n := by rw [h1, h2]
      _ = b := Nat.div_add_mod b n
  · intro p hp
    obtain ⟨ht, hm⟩ := hp
    have ht3 : p.1 < 3 := ht
    have hmn : p.2 < n := hm
    refine ⟨p.1 * n + p.2, ?_, ?_⟩
    · show p.1 * n + p.2 < 3 * n
      have hstep : p.1 * n + p.2 < (p.1 + 1) * n := by
        rw [Nat.succ_mul]
        omega
      have hle : (p.1 + 1) * n ≤ 3 * n := Nat.mul_le_mul_right n (by omega)
      omega
    · show (term_index n (p.1 * n + p.2), name_index n (p.1 * n + p.2)) = p
      unfold term_index name_index
      have hdiv : (p.1 * n + p.2) / n = p.1 := by
        rw [Nat.add_comm, Nat.mul_comm, Nat.add_mul_div_left _ _ h,
          Nat.div_eq_of_lt hmn]
        omega
      have hmod : (p.1 * n + p.2) % n = p.2 := by
        rw [Nat.add_comm, Nat.add_mul_mod_self_right, Nat.mod_eq_of_lt hmn]
      rw [hdiv, hmod]

/-- Witness for claim C9 with two dataset names. -/
theorem slurm_decomp_bijective_witness :
    Set.BijOn (slurmDecomp 2) (Set.Iio (3 * 2))
        (Set.Iio 3 ×ˢ Set.Iio 2) ∧
      termsList.length = 3 ∧ termsList.Nodup :=
  slurm_decomp_bijective 2 (by decide)

/-- Outcome of one run of the tail of the dataset-loading job script:
the contents written to the .done marker file (none when it is not
created), the lines sent to stderr by log_error, and the script's exit
status. -/
structure LoadJobRun where
  markerContents : Option Str
  stderrLines : List Str
  exitStatus : Nat
deriving DecidableEq

/-- Embeds the if/else tail of run_load_dataset.sh (same shape in the
load_datasets array script): when the python load_dataset.py command
exits 0, a success line is logged, log_error prints "No errors!" and
the marker file is written, after which the script ends with status 0;
otherwise log_error prints an ERROR line and the script exits 1 without
touching the marker file. -/
def run_load_dataset (jobName endTime : Str) (pythonExit : Nat) : LoadJobRun :=
  if pythonExit = 0 then
    { markerContents :=
        some ('[' :: endTime ++ "] Done with ".toList ++ jobName ++ "!".toList),
      stderrLines := ["No errors!".toList],
      exitStatus := 0 }
  else
    { markerContents := none,
      stderrLines := ["ERROR: ".toList ++ jobName ++ "!".toList],
      exitStatus := 1 }

/-- Claim C10: the .done marker file is written iff the python command
exits 0, and on a nonzero exit the script logs an ERROR line to stderr
and terminates with exit status 1 without creating the marker file. -/
theorem load_dataset_marker_iff (jobName endTime : Str) (pythonExit : Nat) :
    ((run_load_dataset jobName endTime pythonExit).markerContents.isSome ↔
      pythonExit = 0) ∧
      (pythonExit ≠ 0 →
        ("ERROR: ".toList ++ jobName ++ "!".toList) ∈
            (run_load_dataset jobName endTime pythonExit).stderrLines ∧
          (run_load_dataset jobName endTime pythonExit).exitStatus = 1 ∧
          (run_load_dataset jobName endTime pythonExit).markerContents = none) := by
  unfold run_load_dataset
  by_cases h : pythonExit = 0
  · rw [if_pos h]
    exact ⟨iff_of_true rfl h, fun hne => absurd h hne⟩
  · rw [if_neg h]
    exact ⟨iff_of_false (by simp) h, fun _ => ⟨by simp, rfl, rfl⟩⟩

/-- Witness for claim C10 at the job name load_datasets and python exit
status 1. -/
theorem load_dataset_marker_iff_witness :
    ((run_load_dataset "load_datasets".toList "t".toList 1).markerContents.isSome ↔
      (1 : Nat) = 0) ∧
      ((1 : Nat) ≠ 0 →
        ("ERROR: ".toList ++ "load_datasets".toList ++ "!".toList) ∈
            (run_load_dataset "load_datasets".toList "t".toList 1).stderrLines ∧
          (run_load_dataset "load_datasets".toList "t".toList 1).exitStatus = 1 ∧
          (run_load_dataset "load_datasets".toList "t".toList 1).markerContents =
            none) :=
  load_dataset_marker_iff "load_datasets".toList "t".toList 1
